import Mathlib

/-!
Shallow embedding of src/ansible/library/partition.py (an Ansible module
driving the external tool parted), together with proofs about the claims of
the specification.  The module is Python 2 code; where Python 2 semantics
matter (string-to-int comparison, eager filter) the embedding follows
CPython 2.  Numeric values produced by the Python float builtin are modelled
as rationals; Python round(x, 2) is modelled by rounding the rational to two
decimal places (the claims never exercise an exact half-way tie, the only
point where binary floating point and rational rounding could part ways).
Fallible Python operations (raising exceptions) return Except values.
-/

/-- Rounding to 2 decimal places, the model of the Python round(x, 2) calls
inside the equality and overlap predicates. -/
def round2 (q : ℚ) : ℚ := ((round (q * 100) : ℤ) : ℚ) / 100

/-- Value of a list of decimal digit characters, most significant first. -/
def digitsVal (cs : List Char) : ℕ := cs.foldl (fun a c => a * 10 + (c.toNat - 48)) 0

/-- The whitespace set of the Python str.strip, str.split and float builtins. -/
def isPyWs (c : Char) : Bool :=
  c == ' ' || c == '\t' || c == '\n' || c == '\r' || c == Char.ofNat 11 || c == Char.ofNat 12

/-- Model of the Python str.strip method: drop whitespace from both ends. -/
def pyStrip (s : String) : String :=
  ⟨((s.toList.dropWhile isPyWs).reverse.dropWhile isPyWs).reverse⟩

/-- Shared sign handling of the Python int and float builtins: an optional
single leading sign character, returned as a multiplier. -/
def pySign : List Char → ℤ × List Char
  | '-' :: cs => (-1, cs)
  | '+' :: cs => (1, cs)
  | cs => (1, cs)

/-- Unsigned part of the Python float builtin on strings: digits with an
optional single decimal point, at least one digit overall.  (Exponents and
the inf and nan spellings never occur in the strings this module feeds to
float, which are outputs of numify.) -/
def parseFloatCore (cs : List Char) : Option ℚ :=
  match cs.dropWhile Char.isDigit with
  | [] =>
    if (cs.takeWhile Char.isDigit).isEmpty then none
    else some (digitsVal (cs.takeWhile Char.isDigit))
  | '.' :: fr =>
    if fr.all Char.isDigit && !((cs.takeWhile Char.isDigit).isEmpty && fr.isEmpty) then
      some ((digitsVal (cs.takeWhile Char.isDigit) : ℚ) +
        (digitsVal fr : ℚ) / (10 : ℚ) ^ fr.length)
    else none
  | _ => none

/-- Model of the Python float builtin applied to a string; none models the
ValueError raised on a malformed literal. -/
def parseFloat (s : String) : Option ℚ :=
  (parseFloatCore (pySign (pyStrip s).toList).2).map
    (fun q => (((pySign (pyStrip s).toList).1 : ℤ) : ℚ) * q)

/-- Unsigned part of the Python int builtin on strings: a nonempty run of
digits and nothing else. -/
def pyIntCore (cs : List Char) : Option ℤ :=
  if !cs.isEmpty && cs.all Char.isDigit then some (digitsVal cs) else none

/-- Model of the Python int builtin applied to a string; none models the
ValueError raised on a malformed literal. -/
def pyIntOfStr (s : String) : Option ℤ :=
  (pyIntCore (pySign (pyStrip s).toList).2).map
    (fun n => (pySign (pyStrip s).toList).1 * n)

/-- The numify helper of Partition.init in the source: keep only the
characters of the set -+.1234567890. -/
def numify (s : String) : String :=
  ⟨s.toList.filter (fun c => "-+.1234567890".toList.contains c)⟩

/-- First index at which the pattern occurs as a contiguous run, starting the
count at i; the engine of the Python str.index method. -/
def idxOfAux (ps : List Char) : List Char → ℕ → Option ℕ
  | cs, i =>
    if ps.isPrefixOf cs then some i
    else
      match cs with
      | [] => none
      | _ :: rest => idxOfAux ps rest (i + 1)

/-- Model of the Python str.index method (as an Option; none models the
ValueError on a missing substring). -/
def strIndexOf (s pat : String) : Option ℕ := idxOfAux pat.toList s.toList 0

/-- Model of the Python substring containment test (pat in s). -/
def strContains (s pat : String) : Bool := (strIndexOf s pat).isSome

/-- Model of the Python str.startswith method. -/
def pyStartsWith (s pat : String) : Bool := pat.toList.isPrefixOf s.toList

/-- Engine of the Python str.split method with an explicit separator; the
fuel argument (an upper bound on the remaining length) keeps the recursion
structural. -/
def splitOnAuxF (sep : List Char) : ℕ → List Char → List Char → List (List Char)
  | 0, _, acc => [acc.reverse]
  | _ + 1, [], acc => [acc.reverse]
  | fuel + 1, c :: cs, acc =>
    if sep.isPrefixOf (c :: cs) then
      acc.reverse :: splitOnAuxF sep fuel ((c :: cs).drop sep.length) []
    else
      splitOnAuxF sep fuel cs (c :: acc)

/-- Model of the Python str.split method with an explicit separator string
(empty pieces are kept, as in Python). -/
def pySplitOn (s sep : String) : List String :=
  (splitOnAuxF sep.toList (s.toList.length + 1) s.toList []).map (fun cs => ⟨cs⟩)

/-- Engine of the Python str.split method without arguments: split on runs of
whitespace, dropping empty pieces. -/
def splitWsAux : List Char → List Char → List (List Char)
  | [], acc => if acc.isEmpty then [] else [acc.reverse]
  | c :: cs, acc =>
    if isPyWs c then
      if acc.isEmpty then splitWsAux cs [] else acc.reverse :: splitWsAux cs []
    else splitWsAux cs (c :: acc)

/-- Model of the Python str.split method without arguments. -/
def pySplitWs (s : String) : List String :=
  (splitWsAux s.toList []).map (fun cs => ⟨cs⟩)

/-- Model of a Python slice s[a:b] with the usual clamping and
negative-index-from-the-end conventions. -/
def pySlice (s : String) (a b : ℤ) : String :=
  let n : ℤ := s.toList.length
  let lo : ℤ := if a < 0 then max 0 (n + a) else min a n
  let hi : ℤ := if b < 0 then max 0 (n + b) else min b n
  ⟨(s.toList.drop lo.toNat).take (hi - lo).toNat⟩

/-- Exceptions the Python module can raise while running: an IndexError from
indexing an empty list or a too-short split, a KeyError from a missing dict
key, an AttributeError from reading an attribute that was never assigned, and
a ValueError (raised explicitly by set_partition, and by the int and float
builtins on malformed literals). -/
inductive PyErr where
  | indexError : PyErr
  | keyError : String → PyErr
  | attributeError : String → PyErr
  | valueError : String → PyErr
deriving DecidableEq, Repr

/-- A dynamically typed Python value as it flows into the comparison
predicates: either an int or a str. -/
inductive PyVal where
  | int : ℤ → PyVal
  | str : String → PyVal
deriving DecidableEq, Repr

/-- The Python float builtin on a dynamic value. -/
def pyFloat : PyVal → Except PyErr ℚ
  | .int n => .ok (n : ℚ)
  | .str s =>
    match parseFloat s with
    | some q => .ok q
    | none => .error (.valueError ("could not convert string to float: " ++ s))

/-- The Python int builtin on a dynamic value. -/
def pyInt : PyVal → Except PyErr ℤ
  | .int n => .ok n
  | .str s =>
    match pyIntOfStr s with
    | some n => .ok n
    | none => .error (.valueError ("invalid literal for int: " ++ s))

/-- CPython 2 evaluation of the comparison v less-than 0 for a dynamic value.
In CPython 2 a comparison between mismatched types falls back to a fixed
type ordering in which every number sorts before every string, so for a str
the test is always false (and never an error). -/
def py2LtZero : PyVal → Bool
  | .int n => decide (n < 0)
  | .str _ => false

/-- One existing partition record, as built by Partition.init in the source:
every field is kept as a string, exactly as in the Python object. -/
structure Partition where
  max_size : String
  number : String
  start : String
  end_ : String
deriving DecidableEq, Repr

/-- Python dict lookup on an association list built by dict(zip(ks, vs)):
the last binding of a duplicated key wins; a missing key is a KeyError. -/
def pyDictGet (d : List (String × String)) (k : String) : Except PyErr String :=
  match d.reverse.lookup k with
  | some v => .ok v
  | none => .error (.keyError k)

/-- Embedding of Partition.__init__: numify the size, look up the Number,
Start and End columns, numify Start and End, and then run the sentinel test of the source (if self.end less than 0 then self.end = self.max_size).  At
that point self.end is a str, so under CPython 2 the comparison with the int
0 is always false and the branch never fires. -/
def Partition.init (tbl : List (String × String)) (max_size : String) :
    Except PyErr Partition := do
  let ms := numify max_size
  let number ← pyDictGet tbl "Number"
  let startRaw ← pyDictGet tbl "Start"
  let endRaw ← pyDictGet tbl "End"
  let st := numify startRaw
  let en := numify endRaw
  let en := if py2LtZero (.str en) then ms else en
  pure { max_size := ms, number := number, start := st, end_ := en }

/-- Embedding of Partition.same: convert the candidate end with int, resolve
the negative sentinel to self.max_size, then compare start and end against
the record fields, each side converted with float and rounded to 2 decimal
places.  The Python conjunction short-circuits: when the start comparison is
false the end fields are never converted, so their conversion errors are not
raised. -/
def Partition.same (p : Partition) (start end_ : PyVal) : Except PyErr Bool :=
  match pyInt end_ with
  | .error e => .error e
  | .ok n =>
    let aEnd : PyVal := if n < 0 then PyVal.str p.max_size else PyVal.int n
    match pyFloat (PyVal.str p.start), pyFloat start with
    | .error e, _ => .error e
    | .ok _, .error e => .error e
    | .ok qs, .ok qcs =>
      if round2 qs = round2 qcs then
        match pyFloat (PyVal.str p.end_), pyFloat aEnd with
        | .error e, _ => .error e
        | .ok _, .error e => .error e
        | .ok qe, .ok qce => .ok (decide (round2 qe = round2 qce))
      else .ok false

/-- Embedding of Partition.overlaps: floatify every bound (the candidate end
after the sentinel test, which under CPython 2 only fires for a negative
int), report no overlap for merely adjacent ranges, and otherwise use the
closed-interval test. -/
def Partition.overlaps (p : Partition) (start end_ : PyVal) : Except PyErr Bool :=
  match pyFloat start with
  | .error e => .error e
  | .ok qcs =>
    match pyFloat (PyVal.str p.start) with
    | .error e => .error e
    | .ok qs =>
      let endRaw : PyVal := if py2LtZero end_ then PyVal.str p.max_size else end_
      match pyFloat endRaw with
      | .error e => .error e
      | .ok qce =>
        match pyFloat (PyVal.str p.end_) with
        | .error e => .error e
        | .ok qe =>
          let startA := round2 qcs
          let startB := round2 qs
          let endA := round2 qce
          let endB := round2 qe
          if startA = endB ∨ endA = startB then .ok false
          else .ok (decide (endA ≥ startB) && decide (startA ≤ endB))

/-- Column start offset of a title inside the header line; the Python call
table[0].index(title), whose failure (impossible for titles produced by
splitting the header itself) would be a ValueError. -/
def columnIndex (header title : String) : Except PyErr ℕ :=
  match strIndexOf header title with
  | some i => .ok i
  | none => .error (.valueError ("substring not found: " ++ title))

/-- Embedding of read_fixed_width_table.  The source first evaluates
table[0], so the empty list is an IndexError.  Column starts are the index
of each title in the header line; column ends are the next start minus one,
the last column ending at the header length; each following line is sliced
at those offsets and stripped, and zipped with the stripped titles into one
record per line. -/
def read_fixed_width_table (table : List String) :
    Except PyErr (List (List (String × String))) :=
  match table with
  | [] => .error .indexError
  | header :: rows => do
    let titles := pySplitWs header
    let columnStarts ← titles.mapM (fun t => columnIndex header t)
    let columnEnds := (columnStarts.drop 1).map (fun n => (n : ℤ) - 1) ++
      [(header.toList.length : ℤ)]
    let columns := columnStarts.zip columnEnds
    let values := rows.map (fun line =>
      columns.map (fun col => pyStrip (pySlice line (col.1 : ℤ) col.2)))
    pure (values.map (fun line => (titles.map pyStrip).zip line))

/-- Captured outcome of one external command: exit code, stdout, stderr. -/
structure RunResult where
  rc : ℤ
  stdout : String
  stderr : String
deriving DecidableEq, Repr

/-- The command-execution collaborator (the run_command facility of the
module framework): a pure map from a command line to its captured outcome. -/
def Exec : Type := String → RunResult

/-- The PartitionTable object.  label, size and table are Option-valued
because in the source they are instance attributes that exist only once
refresh has assigned them; none models the unset attribute, whose read
raises AttributeError. -/
structure PartitionTable where
  device : String
  unit : String
  label : Option String := none
  size : Option String := none
  table : Option (List Partition) := none
deriving DecidableEq, Repr

/-- The report command built by refresh. -/
def refreshCmd (t : PartitionTable) : String :=
  "parted " ++ t.device ++ " unit " ++ t.unit ++ " print"

/-- Embedding of the read_field helper inside refresh: take every line
matching the predicate, split each on the two-character separator colon-space
and index the piece after the first (an IndexError when a matching line has
no such separator), then return the first result, or the default when no
line matches. -/
def read_field (lines : List String) (pred : String → Bool) (dflt : String) :
    Except PyErr String :=
  match (lines.filter pred).mapM (fun line => (pySplitOn line ": ").get? 1) with
  | none => .error .indexError
  | some vals => .ok (vals.headD dflt)

/-- Embedding of the table-accumulation loop of refresh: ignore lines until
one starts with Number, then collect every later non-blank line (blank lines
are skipped, not terminators, exactly as in the loop of the source). -/
def gatherTable (lines : List String) : List String :=
  lines.foldl
    (fun tbl line =>
      if tbl.isEmpty then
        if pyStartsWith line "Number" then [line] else []
      else
        if (pyStrip line).toList.length > 0 then tbl ++ [line] else tbl)
    []

/-- The successful-report part of refresh: extract the label after the
Partition Table: marker and the size after the Disk device: marker, gather
the tabular section, parse it, and build one Partition per record, all
sharing the just-extracted size. -/
def refreshFields (device stdout : String) :
    Except PyErr (String × String × List Partition) :=
  let lines := pySplitOn stdout "\n"
  match read_field lines (fun line => strContains line "Partition Table:") "" with
  | .error e => .error e
  | .ok label =>
    match read_field lines (fun line => strContains line ("Disk " ++ device ++ ":")) "" with
    | .error e => .error e
    | .ok size =>
      match read_fixed_width_table (gatherTable lines) with
      | .error e => .error e
      | .ok recs =>
        match recs.mapM (fun r => Partition.init r size) with
        | .error e => .error e
        | .ok parts => .ok (label, size, parts)

/-- Embedding of PartitionTable.refresh.  It returns the list of commands it
issued (always exactly the report command) next to the outcome.  On a
non-zero exit code the source returns early, so the object is returned
unchanged: the label, size and table attributes are neither set nor
cleared.  On success the three attributes are overwritten from the parsed
output. -/
def refresh (exec : Exec) (t : PartitionTable) :
    List String × Except PyErr PartitionTable :=
  ([refreshCmd t],
    if (exec (refreshCmd t)).rc ≠ 0 then .ok t
    else
      match refreshFields t.device (exec (refreshCmd t)).stdout with
      | .error e => .error e
      | .ok x =>
        .ok { t with label := some x.1, size := some x.2.1, table := some x.2.2 })

/-- The label-creation command built by set_label. -/
def mklabelCmd (t : PartitionTable) (label : String) : String :=
  "parted -s -a optimal " ++ t.device ++ " -- mklabel " ++ label

/-- Embedding of PartitionTable.set-label: refresh, report unchanged when the
current label already matches (reading the label attribute, an AttributeError
when a failed refresh left it unset), otherwise run mklabel; a failed mklabel
is absorbed as unchanged, a successful one is followed by a refresh and
reported as changed. -/
def set_label (exec : Exec) (t : PartitionTable) (label : String) :
    List String × Except PyErr (PartitionTable × Bool) :=
  match refresh exec t with
  | (tr1, .error e) => (tr1, .error e)
  | (tr1, .ok t1) =>
    match t1.label with
    | none => (tr1, .error (.attributeError "label"))
    | some cur =>
      if cur = label then (tr1, .ok (t1, false))
      else
        if (exec (mklabelCmd t1 label)).rc ≠ 0 then
          (tr1 ++ [mklabelCmd t1 label], .ok (t1, false))
        else
          match refresh exec t1 with
          | (tr2, .error e) => (tr1 ++ [mklabelCmd t1 label] ++ tr2, .error e)
          | (tr2, .ok t2) => (tr1 ++ [mklabelCmd t1 label] ++ tr2, .ok (t2, true))

/-- The partition-removal command built by set_partition. -/
def rmCmd (t : PartitionTable) (number : String) : String :=
  "parted -s -a optimal " ++ t.device ++ " -- unit " ++ t.unit ++ " rm " ++ number

/-- The partition-creation command built by set_partition.  Like the removal
command it interpolates self.unit (the unit argument of set_partition itself
is unused by the source). -/
def mkpartCmd (t : PartitionTable) (part_type fs_type : String) (start end_ : ℤ) :
    String :=
  "parted -s -a optimal " ++ t.device ++ " -- unit " ++ t.unit ++ " mkpart " ++
    part_type ++ " " ++ fs_type ++ " " ++ toString start ++ " " ++ toString end_

/-- The message of the ValueError raised by set_partition on a failed removal
or creation: the format string interpolating rc, stdout, stderr and the
command. -/
def errMsg (r : RunResult) (cmd : String) : String :=
  toString r.rc ++ " " ++ r.stdout ++ " " ++ r.stderr ++ " " ++ cmd

/-- The idempotency test of set_partition:
len(filter(lambda partition: partition.same(start, end), self.table)) > 0.
The Python 2 filter is eager, so same runs on every record (and any of its
errors is raised) before the length test. -/
def sameAny (start end_ : ℤ) : List Partition → Except PyErr Bool
  | [] => .ok false
  | p :: rest =>
    match p.same (.int start) (.int end_) with
    | .error e => .error e
    | .ok b =>
      match sameAny start end_ rest with
      | .error e => .error e
      | .ok b2 => .ok (b || b2)

/-- The removal loop of set_partition: for each record in table order whose
overlaps test holds, run the removal command; a non-zero exit raises a
ValueError carrying rc, stdout, stderr and the command, ending the loop (and
the whole operation) at once.  Returns the issued commands and the outcome. -/
def removeLoop (exec : Exec) (t : PartitionTable) (start end_ : ℤ) :
    List Partition → List String × Except PyErr Unit
  | [] => ([], .ok ())
  | p :: rest =>
    match p.overlaps (.int start) (.int end_) with
    | .error e => ([], .error e)
    | .ok false => removeLoop exec t start end_ rest
    | .ok true =>
      if (exec (rmCmd t p.number)).rc ≠ 0 then
        ([rmCmd t p.number],
          .error (.valueError (errMsg (exec (rmCmd t p.number)) (rmCmd t p.number))))
      else
        match removeLoop exec t start end_ rest with
        | (tr, res) => (rmCmd t p.number :: tr, res)

/-- Embedding of PartitionTable.set_partition: refresh; report unchanged when
some record is the same; otherwise remove every overlapping record (removal
failure is fatal), run mkpart (failure likewise fatal, with the same
ValueError shape), refresh again and report changed.  The unit argument is
accepted and ignored, as in the source.  Returns the issued commands next to
the outcome. -/
def set_partition (exec : Exec) (t : PartitionTable)
    (unit part_type fs_type : String) (start end_ : ℤ) :
    List String × Except PyErr (PartitionTable × Bool) :=
  match refresh exec t with
  | (tr1, .error e) => (tr1, .error e)
  | (tr1, .ok t1) =>
    match t1.table with
    | none => (tr1, .error (.attributeError "table"))
    | some parts =>
      match sameAny start end_ parts with
      | .error e => (tr1, .error e)
      | .ok true => (tr1, .ok (t1, false))
      | .ok false =>
        match removeLoop exec t1 start end_ parts with
        | (trR, .error e) => (tr1 ++ trR, .error e)
        | (trR, .ok _) =>
          if (exec (mkpartCmd t1 part_type fs_type start end_)).rc ≠ 0 then
            (tr1 ++ trR ++ [mkpartCmd t1 part_type fs_type start end_],
              .error (.valueError
                (errMsg (exec (mkpartCmd t1 part_type fs_type start end_))
                  (mkpartCmd t1 part_type fs_type start end_))))
          else
            match refresh exec t1 with
            | (tr2, .error e) =>
              (tr1 ++ trR ++ [mkpartCmd t1 part_type fs_type start end_] ++ tr2, .error e)
            | (tr2, .ok t2) =>
              (tr1 ++ trR ++ [mkpartCmd t1 part_type fs_type start end_] ++ tr2,
                .ok (t2, true))

/-- The supports_check_mode flag the module declares in its AnsibleModule
argument spec. -/
def supports_check_mode : Bool := true

/-- The validated module parameters (the configuration front end is an
external collaborator; these are its outputs, with the defaults of the module). -/
structure ModuleParams where
  device : String
  label : String := "gpt"
  unit : String := "compact"
  part_type : String := "primary"
  fs_type : String := "ext4"
  start : ℤ
  end_ : ℤ
deriving DecidableEq, Repr

/-- The result reported through exit_json: the changed flag and the refreshed
partition list. -/
structure ModuleResult where
  changed : Bool
  partition_table : List Partition
deriving DecidableEq, Repr

/-- Embedding of main: build the PartitionTable, run set_label then
set_partition, report changed as the disjunction, and expose the final
partition list.  The check_mode argument models the check-mode flag the
framework would hand the module; the body never consults it, exactly as the
source never reads module.check_mode even though it declares
supports_check_mode=True.  (Named moduleMain because the bare name main is
reserved by Lean for executables.) -/
def moduleMain (exec : Exec) (check_mode : Bool) (p : ModuleParams) :
    List String × Except PyErr ModuleResult :=
  match set_label exec { device := p.device, unit := p.unit } p.label with
  | (tr1, .error e) => (tr1, .error e)
  | (tr1, .ok x) =>
    match set_partition exec x.1 p.unit p.part_type p.fs_type p.start p.end_ with
    | (tr2, .error e) => (tr1 ++ tr2, .error e)
    | (tr2, .ok y) =>
      match y.1.table with
      | none => (tr1 ++ tr2, .error (.attributeError "table"))
      | some parts => (tr1 ++ tr2, .ok { changed := x.2 || y.2, partition_table := parts })

/-! Concrete fixtures used by the closed theorems and the witnesses: a device
with one existing partition from 0 to 500 of a 1000MB disk, reported by a
parted that succeeds, and variants whose commands fail. -/

/-- A parted report for /dev/sdb: gpt label, 1000MB disk, one partition
occupying 0 to 500. -/
def demoReport : String :=
  "Disk /dev/sdb: 1000MB\nPartition Table: gpt\n\nNumber  Start  End\n 1      0      500\n"

/-- The existing partition record parsed from demoReport. -/
def demoPart : Partition :=
  { max_size := "1000", number := "1", start := "0", end_ := "500" }

/-- A fresh PartitionTable for /dev/sdb in the compact unit (no attribute
assigned yet). -/
def t0demo : PartitionTable := { device := "/dev/sdb", unit := "compact" }

/-- The PartitionTable after a successful refresh against demoReport. -/
def t1demo : PartitionTable :=
  { device := "/dev/sdb", unit := "compact", label := some "gpt",
    size := some "1000MB", table := some [demoPart] }

/-- An execution collaborator under which every command succeeds and the
report command prints demoReport. -/
def demoExec : Exec := fun cmd =>
  if cmd = "parted /dev/sdb unit compact print" then ⟨0, demoReport, ""⟩
  else ⟨0, "", ""⟩

/-- An execution collaborator under which the report succeeds with demoReport
but every other command (in particular the removal) fails with exit code 1. -/
def demoExecRmFail : Exec := fun cmd =>
  if cmd = "parted /dev/sdb unit compact print" then ⟨0, demoReport, ""⟩
  else ⟨1, "out", "err"⟩

/-- An execution collaborator under which every command fails, as parted does
on a disk with no recognised label. -/
def failExec : Exec := fun _ =>
  ⟨1, "", "Error: /dev/sdb: unrecognised disk label"⟩

/-- An execution collaborator whose report succeeds but prints no Number
header line. -/
def noTableExec : Exec := fun _ =>
  ⟨0, "Disk /dev/sdb: 1000MB\nPartition Table: gpt\n", ""⟩

/-- A PartitionTable whose attributes hold the state of an earlier successful
refresh of an msdos-labelled disk. -/
def tMsdos : PartitionTable :=
  { device := "/dev/sdb", unit := "compact", label := some "msdos",
    size := some "1000MB", table := some [] }

/-- Module parameters asking for a primary ext4 partition from 300 to 800 on
/dev/sdb with a gpt label. -/
def demoParams : ModuleParams :=
  { device := "/dev/sdb", label := "gpt", unit := "compact",
    part_type := "primary", fs_type := "ext4", start := 300, end_ := 800 }

/-- A record occupying 0 to 100, used to exercise the adjacency rule. -/
def demoPartAdj : Partition :=
  { max_size := "1000", number := "2", start := "0", end_ := "100" }

/-- A record with a fractional end field, as the compact unit of parted
commonly reports (an End of 53.7GB numifies to 53.7): fully resolved
(nonnegative, sentinel-free), yet not an integer literal. -/
def demoPartFrac : Partition :=
  { max_size := "1000", number := "3", start := "0", end_ := "53.7" }

set_option maxRecDepth 8000

/-! Helper lemmas. -/

/-- A list all of whose elements satisfy a Boolean predicate is its own
takeWhile and has an empty dropWhile. -/
theorem takeWhile_dropWhile_of_all {α : Type} (p : α → Bool) :
    ∀ l : List α, l.all p = true → l.takeWhile p = l ∧ l.dropWhile p = [] := by
  intro l h
  induction l with
  | nil => exact ⟨rfl, rfl⟩
  | cons a as ih =>
    simp only [List.all_cons, Bool.and_eq_true] at h
    simp [List.takeWhile, List.dropWhile, h.1, ih h.2]

/-- A digit run the unsigned int parser accepts is accepted by the unsigned
float parser with the same value. -/
theorem parseFloatCore_of_pyIntCore (cs : List Char) (m : ℤ)
    (h : pyIntCore cs = some m) : parseFloatCore cs = some (m : ℚ) := by
  unfold pyIntCore at h
  by_cases hcond : (!cs.isEmpty && cs.all Char.isDigit) = true
  · rw [if_pos hcond] at h
    injection h with h
    obtain ⟨hne, hall⟩ := Bool.and_eq_true_iff.mp hcond
    obtain ⟨htw, hdw⟩ := takeWhile_dropWhile_of_all Char.isDigit cs hall
    unfold parseFloatCore
    rw [hdw, htw]
    have hne2 : cs.isEmpty = false := by
      revert hne; cases cs.isEmpty <;> simp
    rw [hne2]
    simp [← h]
  · rw [if_neg hcond] at h; cases h

/-- A string the Python int builtin accepts is accepted by the float builtin
with the same value. -/
theorem parseFloat_of_pyIntOfStr (s : String) (n : ℤ) (h : pyIntOfStr s = some n) :
    parseFloat s = some (n : ℚ) := by
  unfold pyIntOfStr at h
  unfold parseFloat
  rcases hc : pyIntCore (pySign (pyStrip s).toList).2 with _ | m
  · rw [hc] at h; simp at h
  · rw [hc] at h
    simp only [Option.map_some'] at h
    rw [parseFloatCore_of_pyIntCore _ m hc]
    simp only [Option.map_some']
    injection h with h
    rw [← h]
    push_cast
    ring_nf

/-- A successful refresh is idempotent: refreshing the resulting table again
issues the same command and returns the same table, because refresh reads
only the device and unit fields (which it preserves) and the execution
collaborator is a pure function. -/
theorem refresh_idem (exec : Exec) (t t' : PartitionTable) (tr : List String)
    (h : refresh exec t = (tr, Except.ok t')) : refresh exec t' = (tr, Except.ok t') := by
  obtain ⟨d, u, la, sz, tb⟩ := t
  unfold refresh at h ⊢
  injection h with h1 h2
  subst h1
  by_cases hrc : (exec (refreshCmd ⟨d, u, la, sz, tb⟩)).rc ≠ 0
  · rw [if_pos hrc] at h2
    injection h2 with h2
    subst h2
    simp [hrc]
  · rw [if_neg hrc] at h2
    rcases hf : refreshFields d (exec (refreshCmd ⟨d, u, la, sz, tb⟩)).stdout with e | x
    · rw [hf] at h2; cases h2
    · rw [hf] at h2
      injection h2 with h2
      subst h2
      have hcmd : refreshCmd ⟨d, u, some x.1, some x.2.1, some x.2.2⟩ =
          refreshCmd ⟨d, u, la, sz, tb⟩ := rfl
      simp only [hcmd]
      rw [if_neg hrc, hf]

/-- Boolean form of the overlap test returning true exactly on records whose
overlaps call succeeds with true. -/
def isOv (start end_ : ℤ) (q : Partition) : Bool :=
  match q.overlaps (.int start) (.int end_) with
  | .ok true => true
  | _ => false

/-- The removal commands the loop of set_partition issues for a given list of
records: one per record whose overlap test holds, in table order. -/
def preRmTrace (t : PartitionTable) (start end_ : ℤ) (pre : List Partition) :
    List String :=
  (pre.filter (isOv start end_)).map (fun q => rmCmd t q.number)

/-- If every record of a prefix either does not overlap or is removed with
exit code 0, and the next record overlaps but its removal command exits
non-zero, then the loop issues the prefix removals followed by the one
failing removal and stops with the ValueError, touching no later record. -/
theorem removeLoop_fail_at (exec : Exec) (t : PartitionTable) (start end_ : ℤ)
    (p : Partition) (post : List Partition)
    (hov : p.overlaps (.int start) (.int end_) = .ok true)
    (hrc : (exec (rmCmd t p.number)).rc ≠ 0) :
    ∀ pre : List Partition,
      (∀ q ∈ pre, q.overlaps (.int start) (.int end_) = .ok false ∨
        (q.overlaps (.int start) (.int end_) = .ok true ∧
          (exec (rmCmd t q.number)).rc = 0)) →
      removeLoop exec t start end_ (pre ++ p :: post) =
        (preRmTrace t start end_ pre ++ [rmCmd t p.number],
          .error (.valueError (errMsg (exec (rmCmd t p.number)) (rmCmd t p.number)))) := by
  intro pre
  induction pre with
  | nil =>
    intro _
    rw [List.nil_append]
    simp only [removeLoop, hov]
    rw [if_pos hrc]
    simp [preRmTrace]
  | cons q rest ih =>
    intro hq
    have hrest := fun r hr => hq r (List.mem_cons_of_mem q hr)
    rcases hq q (List.mem_cons_self q rest) with hno | ⟨hyes, hzero⟩
    · have hq0 : isOv start end_ q = false := by
        unfold isOv; rw [hno]
      rw [List.cons_append]
      simp only [removeLoop, hno]
      rw [ih hrest]
      unfold preRmTrace
      simp [List.filter_cons, hq0]
    · have hq1 : isOv start end_ q = true := by
        unfold isOv; rw [hyes]
      rw [List.cons_append]
      simp only [removeLoop, hyes]
      rw [if_neg (fun hcon => hcon hzero)]
      rw [ih hrest]
      unfold preRmTrace
      simp [List.filter_cons, hq1]

/-- C1: if, after the initial refresh, some existing partition record
satisfies same(start, end), then set_partition reports unchanged (returns
false) and issues no tool invocation beyond the report command of that
initial refresh. -/
theorem set_partition_same_short_circuits
    (exec : Exec) (t t1 : PartitionTable) (parts : List Partition)
    (unit part_type fs_type : String) (start end_ : ℤ)
    (href : refresh exec t = ([refreshCmd t], Except.ok t1))
    (htab : t1.table = some parts)
    (hsame : sameAny start end_ parts = Except.ok true) :
    set_partition exec t unit part_type fs_type start end_ =
      ([refreshCmd t], Except.ok (t1, false)) := by
  simp only [set_partition, href, htab, hsame]

/-- Witness for C1: on the demo device, whose table already holds the
partition from 0 to 500, asking for (0, 500) issues only the report command
and reports unchanged. -/
theorem set_partition_same_short_circuits_witness :
    set_partition demoExec t0demo "compact" "primary" "ext4" 0 500 =
      ([refreshCmd t0demo], Except.ok (t1demo, false)) :=
  set_partition_same_short_circuits demoExec t0demo t1demo [demoPart]
    "compact" "primary" "ext4" 0 500
    (by with_unfolding_all rfl) (by with_unfolding_all rfl)
    (by with_unfolding_all rfl)

/-- The start comparison of the same predicate fails for a record whose start
parses to 0 against a candidate start of 300, so same returns false. -/
theorem same_300_800_of_start0 (p : Partition) (hstart : parseFloat p.start = some 0) :
    p.same (PyVal.int 300) (PyVal.int 800) = Except.ok false := by
  simp only [Partition.same, pyInt]
  rw [if_neg (by norm_num : ¬ (800 : ℤ) < 0)]
  simp only [pyFloat, hstart]
  rw [if_neg (by with_unfolding_all decide :
    ¬ (round2 0 = round2 (((300 : ℤ) : ℚ))))]

/-- A record parsing to the range 0 to 500 overlaps the candidate range 300
to 800. -/
theorem overlaps_300_800_of_0_500 (p : Partition)
    (hstart : parseFloat p.start = some 0) (hend : parseFloat p.end_ = some 500) :
    p.overlaps (PyVal.int 300) (PyVal.int 800) = Except.ok true := by
  simp only [Partition.overlaps, pyFloat, py2LtZero, hstart, hend]
  rw [if_neg (by norm_num : ¬ decide ((800 : ℤ) < 0) = true)]
  simp only [pyFloat]
  rw [if_neg (by with_unfolding_all decide :
    ¬ (round2 (((300 : ℤ) : ℚ)) = round2 500 ∨ round2 (((800 : ℤ) : ℚ)) = round2 0))]
  rw [(by with_unfolding_all decide :
    (decide (round2 (((800 : ℤ) : ℚ)) ≥ round2 0) &&
      decide (round2 (((300 : ℤ) : ℚ)) ≤ round2 500)) = true)]

/-- C2: on a table whose only partition parses to the range 0 to 500, asking
for the range 300 to 800 issues, after the initial report, exactly one
removal naming the number of that partition, then exactly one creation command,
then the closing report, and reports changed. -/
theorem set_partition_conflict_rm_then_create
    (exec : Exec) (t t1 : PartitionTable) (p : Partition)
    (unit part_type fs_type : String)
    (href : refresh exec t = ([refreshCmd t], Except.ok t1))
    (htab : t1.table = some [p])
    (hstart : parseFloat p.start = some 0)
    (hend : parseFloat p.end_ = some 500)
    (hrm : (exec (rmCmd t1 p.number)).rc = 0)
    (hmk : (exec (mkpartCmd t1 part_type fs_type 300 800)).rc = 0) :
    set_partition exec t unit part_type fs_type 300 800 =
      ([refreshCmd t, rmCmd t1 p.number, mkpartCmd t1 part_type fs_type 300 800,
        refreshCmd t], Except.ok (t1, true)) := by
  have hsame : sameAny 300 800 [p] = Except.ok false := by
    simp [sameAny, same_300_800_of_start0 p hstart]
  have hloop : removeLoop exec t1 300 800 [p] = ([rmCmd t1 p.number], Except.ok ()) := by
    simp only [removeLoop, overlaps_300_800_of_0_500 p hstart hend]
    rw [if_neg (fun hcon => hcon hrm)]
  have hre : refresh exec t1 = ([refreshCmd t], Except.ok t1) := refresh_idem exec t t1 _ href
  simp only [set_partition, href, htab, hsame, hloop, hre]
  rw [if_neg (fun hcon => hcon hmk)]
  simp [hre]

/-- Witness for C2: on the demo device with the existing partition from 0 to
500, asking for (300, 800) issues report, one removal of partition 1, one
creation, report, and reports changed. -/
theorem set_partition_conflict_rm_then_create_witness :
    set_partition demoExec t0demo "compact" "primary" "ext4" 300 800 =
      ([refreshCmd t0demo, rmCmd t1demo demoPart.number,
        mkpartCmd t1demo "primary" "ext4" 300 800, refreshCmd t0demo],
        Except.ok (t1demo, true)) :=
  set_partition_conflict_rm_then_create demoExec t0demo t1demo demoPart
    "compact" "primary" "ext4"
    (by with_unfolding_all rfl) (by with_unfolding_all rfl)
    (by with_unfolding_all rfl) (by with_unfolding_all rfl)
    (by with_unfolding_all rfl) (by with_unfolding_all rfl)

/-- C3: when a removal command exits non-zero, set_partition stops at once
with the ValueError carrying the exit code, stdout, stderr and the command;
the trace holds the initial report, the removals of the earlier overlapping
records, and the failing removal, with no later removal and no creation
command. -/
theorem set_partition_remove_failure_aborts
    (exec : Exec) (t t1 : PartitionTable) (pre post : List Partition) (p : Partition)
    (unit part_type fs_type : String) (start end_ : ℤ)
    (href : refresh exec t = ([refreshCmd t], Except.ok t1))
    (htab : t1.table = some (pre ++ p :: post))
    (hsame : sameAny start end_ (pre ++ p :: post) = Except.ok false)
    (hpre : ∀ q ∈ pre, q.overlaps (.int start) (.int end_) = .ok false ∨
      (q.overlaps (.int start) (.int end_) = .ok true ∧
        (exec (rmCmd t1 q.number)).rc = 0))
    (hov : p.overlaps (.int start) (.int end_) = .ok true)
    (hrc : (exec (rmCmd t1 p.number)).rc ≠ 0) :
    set_partition exec t unit part_type fs_type start end_ =
      ([refreshCmd t] ++ preRmTrace t1 start end_ pre ++ [rmCmd t1 p.number],
        Except.error (.valueError
          (errMsg (exec (rmCmd t1 p.number)) (rmCmd t1 p.number)))) := by
  have hloop := removeLoop_fail_at exec t1 start end_ p post hov hrc pre hpre
  simp only [set_partition, href, htab, hsame, hloop]
  simp

/-- Witness for C3: on the demo device whose removal command fails with exit
code 1, asking for (300, 800) issues the report then the single removal and
stops with the ValueError carrying 1, the captured output and the removal
command; no creation command is issued. -/
theorem set_partition_remove_failure_aborts_witness :
    set_partition demoExecRmFail t0demo "compact" "primary" "ext4" 300 800 =
      ([refreshCmd t0demo] ++ preRmTrace t1demo 300 800 [] ++
        [rmCmd t1demo demoPart.number],
        Except.error (.valueError
          (errMsg (demoExecRmFail (rmCmd t1demo demoPart.number))
            (rmCmd t1demo demoPart.number)))) :=
  set_partition_remove_failure_aborts demoExecRmFail t0demo t1demo [] [] demoPart
    "compact" "primary" "ext4" 300 800
    (by with_unfolding_all rfl) (by with_unfolding_all rfl)
    (by with_unfolding_all rfl) (fun q hq => absurd hq (List.not_mem_nil q))
    (by with_unfolding_all rfl) (by with_unfolding_all decide)

/-- C4 (code bug in the source): a failed report command makes refresh return
early without raising, but it does not set the empty state: a table that held
the attributes of an earlier refresh keeps them verbatim (here the stale
label msdos, not the empty string), and a fresh table keeps all three
attributes unset (so the next attribute read raises AttributeError), instead
of holding the empty label, empty size and empty partition list. -/
theorem refresh_failure_leaves_state_unchanged :
    refresh failExec tMsdos = ([refreshCmd tMsdos], Except.ok tMsdos) ∧
    tMsdos.label = some "msdos" ∧
    refresh failExec t0demo = ([refreshCmd t0demo], Except.ok t0demo) ∧
    t0demo.label = none ∧ t0demo.size = none ∧ t0demo.table = none :=
  ⟨by with_unfolding_all rfl, rfl, by with_unfolding_all rfl, rfl, rfl, rfl⟩

/-- C5 (code bug in the source): a record whose normalized End field is the
negative sentinel keeps that negative string.  The sentinel branch compares
the str field self.end with the int 0, a comparison that is always false
under CPython 2, so the constructed end is the string -1 and not the
normalized maxSize 1000. -/
theorem init_keeps_negative_end :
    Partition.init [("Number", "1"), ("Start", "0"), ("End", "-1MB")] "1000MB" =
      Except.ok { max_size := "1000", number := "1", start := "0", end_ := "-1" } ∧
    ("-1" : String) ≠ "1000" :=
  ⟨by with_unfolding_all rfl, by decide⟩

/-- C6: for a record whose maxSize parses to 1000, a candidate end of -1
behaves exactly like an explicit end of 1000, in both the same and the
overlaps predicates, for every candidate start. -/
theorem sentinel_end_matches_explicit_end
    (p : Partition) (hms : parseFloat p.max_size = some 1000) (s : ℤ) :
    p.same (.int s) (.int (-1)) = p.same (.int s) (.int 1000) ∧
    p.overlaps (.int s) (.int (-1)) = p.overlaps (.int s) (.int 1000) := by
  have hcast : (((1000 : ℤ)) : ℚ) = (1000 : ℚ) := by norm_num
  constructor
  · simp only [Partition.same, pyInt]
    rw [if_pos (by norm_num : (-1 : ℤ) < 0), if_neg (by norm_num : ¬ (1000 : ℤ) < 0)]
    simp only [pyFloat, hms, hcast]
  · simp only [Partition.overlaps, py2LtZero]
    rw [if_pos (by norm_num : decide ((-1 : ℤ) < 0) = true),
      if_neg (by norm_num : ¬ decide ((1000 : ℤ) < 0) = true)]
    simp only [pyFloat, hms, hcast]

/-- Witness for C6: the demo record with maxSize 1000 gives the same answers
for a candidate end of -1 and of 1000 at the start 0. -/
theorem sentinel_end_matches_explicit_end_witness :
    demoPart.same (.int 0) (.int (-1)) = demoPart.same (.int 0) (.int 1000) ∧
    demoPart.overlaps (.int 0) (.int (-1)) = demoPart.overlaps (.int 0) (.int 1000) :=
  sentinel_end_matches_explicit_end demoPart (by with_unfolding_all rfl) 0

/-- C7: overlaps reports false whenever the candidate start equals the record
end or the resolved candidate end equals the record start, the equalities
taken after rounding to 2 decimal places, exactly as the source compares
them. -/
theorem overlaps_adjacent_is_false (p : Partition) (qs qe qce : ℚ) (s e : ℤ)
    (hs : parseFloat p.start = some qs)
    (he : parseFloat p.end_ = some qe)
    (hce : (if e < 0 then parseFloat p.max_size else some ((e : ℤ) : ℚ)) = some qce)
    (hadj : round2 ((s : ℤ) : ℚ) = round2 qe ∨ round2 qce = round2 qs) :
    p.overlaps (.int s) (.int e) = .ok false := by
  by_cases hneg : e < 0
  · have hmax : parseFloat p.max_size = some qce := by rwa [if_pos hneg] at hce
    simp only [Partition.overlaps, py2LtZero, pyFloat, hs, he, hmax,
      decide_eq_true_eq]
    rw [if_pos hneg]
    simp only [pyFloat, hmax]
    rw [if_pos hadj]
  · have hqce : qce = ((e : ℤ) : ℚ) := by
      rw [if_neg hneg] at hce
      exact (Option.some.inj hce).symm
    subst hqce
    simp only [Partition.overlaps, py2LtZero, pyFloat, hs, he, decide_eq_true_eq]
    rw [if_neg hneg]
    simp only [pyFloat]
    rw [if_pos hadj]

/-- Witness for C7: the record occupying 0 to 100 does not overlap the
adjacent candidate range 100 to 200. -/
theorem overlaps_adjacent_is_false_witness :
    demoPartAdj.overlaps (.int 100) (.int 200) = .ok false :=
  overlaps_adjacent_is_false demoPartAdj 0 100 ((200 : ℤ) : ℚ) 100 200
    (by with_unfolding_all rfl) (by with_unfolding_all rfl)
    (by norm_num)
    (Or.inl (by with_unfolding_all decide))

/-- C8 counterexample: the fixed-width parser applied to the empty line list
(the absent-header case) fails with an IndexError, because the source indexes
table[0] first; it does not yield the empty record sequence. -/
theorem read_fixed_width_table_empty_errors :
    read_fixed_width_table [] = .error .indexError ∧
    read_fixed_width_table [] ≠ .ok [] :=
  ⟨rfl, fun h => Except.noConfusion h⟩

/-- C8 amended: an empty data section (a header line with no rows) parses to
the empty record sequence, but an absent header is an error: on the empty
line list the parser raises IndexError, and refresh of a successful report
with no Number line propagates that error instead of producing an empty
partition list. -/
theorem read_fixed_width_table_empty_cases
    (header : String) (starts : List ℕ)
    (hidx : (pySplitWs header).mapM (fun t => columnIndex header t) =
      Except.ok starts) :
    read_fixed_width_table [header] = .ok [] ∧
    read_fixed_width_table [] = .error .indexError ∧
    (refresh noTableExec t0demo).2 = .error .indexError := by
  refine ⟨?_, rfl, by with_unfolding_all rfl⟩
  simp only [read_fixed_width_table, hidx]
  rfl

/-- Witness for the amended C8: a bare parted header line parses to the empty
sequence, the empty line list is an IndexError, and refresh of a report
without the header line fails. -/
theorem read_fixed_width_table_empty_cases_witness :
    read_fixed_width_table ["Number  Start  End"] = .ok [] ∧
    read_fixed_width_table [] = .error .indexError ∧
    (refresh noTableExec t0demo).2 = .error .indexError :=
  read_fixed_width_table_empty_cases "Number  Start  End" [0, 8, 15]
    (by with_unfolding_all rfl)

/-- C9 as amended: reflexivity of same on the own fields of a record holds
exactly for the records whose candidate end survives the int coercion that
same applies first, i.e. whose resolved end field is a nonnegative integer
literal (a fractional resolved end makes the reflexive call raise instead:
the companion counterexample).  Under that proviso, same on the own fields
returns true, and same accepts any candidate pair agreeing with the fields
of the record after rounding to 2 decimal places. -/
theorem same_reflexive_and_tolerant (p : Partition) (qs : ℚ) (n : ℤ)
    (hs : parseFloat p.start = some qs)
    (hn : pyIntOfStr p.end_ = some n) (hnn : 0 ≤ n) :
    p.same (.str p.start) (.str p.end_) = .ok true ∧
    (∀ s e : ℤ, 0 ≤ e → round2 ((s : ℤ) : ℚ) = round2 qs →
      round2 ((e : ℤ) : ℚ) = round2 ((n : ℤ) : ℚ) →
      p.same (.int s) (.int e) = .ok true) := by
  have hne : parseFloat p.end_ = some ((n : ℤ) : ℚ) := parseFloat_of_pyIntOfStr _ n hn
  constructor
  · simp only [Partition.same, pyInt, hn]
    rw [if_neg (by omega : ¬ n < 0)]
    simp only [pyFloat, hs, hne]
    simp
  · intro s e he hs2 he2
    simp only [Partition.same, pyInt]
    rw [if_neg (by omega : ¬ e < 0)]
    simp only [pyFloat, hs, hne]
    rw [if_pos hs2.symm]
    simp [he2]

/-- C9 counterexample: same is not reflexive on every record.  A resolved,
sentinel-free record whose end field is the fractional 53.7 (numified from
a parted End such as 53.7GB) makes the reflexive call fail: same first runs
int on the candidate end, and int of 53.7 is a ValueError, so the call
raises instead of returning true. -/
theorem same_reflexive_fails_on_fractional_end :
    demoPartFrac.same (.str demoPartFrac.start) (.str demoPartFrac.end_) =
      .error (.valueError "invalid literal for int: 53.7") ∧
    demoPartFrac.same (.str demoPartFrac.start) (.str demoPartFrac.end_) ≠
      .ok true := by
  have h1 : demoPartFrac.same (.str demoPartFrac.start) (.str demoPartFrac.end_) =
      .error (.valueError "invalid literal for int: 53.7") := by
    with_unfolding_all rfl
  exact ⟨h1, fun h => by rw [h1] at h; exact Except.noConfusion h⟩

/-- Witness for C9: the demo record with start 0 and end 500 is the same as
its own fields, and as the candidate pair (0, 500). -/
theorem same_reflexive_and_tolerant_witness :
    demoPart.same (.str demoPart.start) (.str demoPart.end_) = .ok true ∧
    demoPart.same (.int 0) (.int 500) = .ok true :=
  ⟨(same_reflexive_and_tolerant demoPart 0 500 (by with_unfolding_all rfl)
      (by with_unfolding_all rfl) (by norm_num)).1,
    (same_reflexive_and_tolerant demoPart 0 500 (by with_unfolding_all rfl)
      (by with_unfolding_all rfl) (by norm_num)).2 0 500 (by norm_num)
      (by with_unfolding_all decide) (by with_unfolding_all decide)⟩

/-- C10: the module declares supports_check_mode, yet no code path consults
the flag: a run is identical for every value of the check-mode flag, and in
particular a run with the flag raised still issues the destructive removal
and creation commands on the demo device. -/
theorem check_mode_never_consulted :
    supports_check_mode = true ∧
    (∀ (exec : Exec) (a b : Bool) (p : ModuleParams),
      moduleMain exec a p = moduleMain exec b p) ∧
    (moduleMain demoExec true demoParams).1 =
      [refreshCmd t0demo, refreshCmd t0demo, rmCmd t1demo demoPart.number,
        mkpartCmd t1demo "primary" "ext4" 300 800, refreshCmd t0demo] :=
  ⟨rfl, fun _ _ _ _ => rfl, by with_unfolding_all rfl⟩
